import Mathlib

set_option linter.unusedVariables false

/-!
Verification of the streaming multi-provider AI generation gateway of the
M10C-Video-Summary browser extension (background service: provider adapters
for OpenAI / Gemini / Claude, the SSE frame decoder of
`BackgroundAIService.streamAI`, the misconfiguration error paths, the
`AI_STREAM` port listener with its abort handling, and
`formatSubtitlesForAI`).

Modelling conventions:
* JavaScript strings are modelled as `List Char` (indices and lengths are in
  Unicode code points; UTF-16 surrogate-pair details are not modelled).
* The platform `TextDecoder` (utf-8, non-fatal, `stream: true`) is modelled
  by the WHATWG incremental UTF-8 decoder, fed byte by byte.
* `JSON.parse` is modelled by an executable JSON parser producing the `Json`
  type below; JSON numbers are kept exactly as mantissa × 10^exponent
  (IEEE-754 rounding is not modelled, no claim inspects numeric values).
* Exceptions are modelled with `Except`, JS `undefined`/`null` results of
  optional chaining with `Option`.
-/

/-- JSON values as produced by the runtime JSON parser.  `num m e`
represents the number m × 10^e. -/
inductive Json where
  | null : Json
  | bool : Bool → Json
  | num : Int → Int → Json
  | str : List Char → Json
  | arr : List Json → Json
  | obj : List (List Char × Json) → Json

/-- JavaScript truthiness of a value. -/
def jsTruthy : Json → Bool
  | Json.null => false
  | Json.bool b => b
  | Json.num m _ => m != 0
  | Json.str s => !s.isEmpty
  | Json.arr _ => true
  | Json.obj _ => true

/-- Truthiness of an optional value (`undefined`/`null` are falsy). -/
def jsTruthyOpt : Option Json → Bool
  | none => false
  | some v => jsTruthy v

/-- First-match lookup of a key in an object's field list. -/
def jsLookup (k : List Char) : List (List Char × Json) → Option Json
  | [] => none
  | (k0, v) :: rest => if k0 = k then some v else jsLookup k rest

/-- Optional-chained property access `o?.k`: an object yields its field (or
`undefined`), anything else yields `undefined`. -/
def jsGetQ (o : Option Json) (k : List Char) : Option Json :=
  match o with
  | some (Json.obj fields) => jsLookup k fields
  | _ => none

/-- Optional-chained index access `o?.[i]`. -/
def jsIdxQ (o : Option Json) (i : Nat) : Option Json :=
  match o with
  | some (Json.arr l) => l.get? i
  | _ => none

/-- JavaScript `v || null`: keep a truthy value, otherwise `null`. -/
def jsOrNull (o : Option Json) : Option Json :=
  match o with
  | some v => if jsTruthy v then some v else none
  | none => none

/-- Whitespace recognised by JavaScript `String.prototype.trim` (the common
code points: space, tab, LF, VT, FF, CR, NBSP, LS, PS, BOM). -/
def isJsWs (c : Char) : Bool :=
  [0x9, 0xA, 0xB, 0xC, 0xD, 0x20, 0xA0, 0x2028, 0x2029, 0xFEFF].contains c.toNat

/-- JavaScript `s.trim()`. -/
def jsTrim (s : List Char) : List Char :=
  ((s.dropWhile isJsWs).reverse.dropWhile isJsWs).reverse

/-- JavaScript `s.split("\n")`: always a non-empty list of newline-free
fragments. -/
def splitNl : List Char → List (List Char)
  | [] => [[]]
  | c :: cs =>
    match splitNl cs with
    | [] => [[]]
    | l :: ls => if c = '\n' then [] :: l :: ls else (c :: l) :: ls

/-! ### WHATWG incremental UTF-8 decoder (model of `TextDecoder`) -/

/-- Decoder state: code point accumulator, continuation bytes still needed,
and the admissible range of the next continuation byte. -/
structure Utf8State where
  cp : Nat
  needed : Nat
  lower : Nat
  upper : Nat

def utf8Init : Utf8State := ⟨0, 0, 0x80, 0xBF⟩

def replChar : Char := Char.ofNat 0xFFFD

/-- Handle one byte in the initial (lead-byte) state. -/
def utf8Lead (b : Nat) : List Char × Utf8State :=
  if b ≤ 0x7F then ([Char.ofNat b], utf8Init)
  else if 0xC2 ≤ b ∧ b ≤ 0xDF then ([], ⟨b &&& 0x1F, 1, 0x80, 0xBF⟩)
  else if 0xE0 ≤ b ∧ b ≤ 0xEF then
    ([], ⟨b &&& 0xF, 2, if b = 0xE0 then 0xA0 else 0x80,
          if b = 0xED then 0x9F else 0xBF⟩)
  else if 0xF0 ≤ b ∧ b ≤ 0xF4 then
    ([], ⟨b &&& 0x7, 3, if b = 0xF0 then 0x90 else 0x80,
          if b = 0xF4 then 0x8F else 0xBF⟩)
  else ([replChar], utf8Init)

/-- Feed one byte to the decoder (non-fatal mode: invalid bytes produce
U+FFFD; an invalid continuation byte is reprocessed as a lead byte). -/
def utf8DecByte (st : Utf8State) (b : Nat) : List Char × Utf8State :=
  if st.needed = 0 then utf8Lead b
  else if st.lower ≤ b ∧ b ≤ st.upper then
    let cp := st.cp * 64 + (b &&& 0x3F)
    if st.needed = 1 then ([Char.ofNat cp], utf8Init)
    else ([], ⟨cp, st.needed - 1, 0x80, 0xBF⟩)
  else
    let r := utf8Lead b
    (replChar :: r.1, r.2)

/-- Model of `decoder.decode(value, { stream: true })`: decode a whole byte
chunk, threading the incremental state. -/
def decodeChunk : Utf8State → List Nat → List Char × Utf8State
  | st, [] => ([], st)
  | st, b :: bs =>
    let r := utf8DecByte st b
    let rest := decodeChunk r.2 bs
    (r.1 ++ rest.1, rest.2)

/-! ### Executable JSON parser (model of `JSON.parse`) -/

def isJsonWs (c : Char) : Bool := [0x20, 0x9, 0xA, 0xD].contains c.toNat

def skipWs (s : List Char) : List Char := s.dropWhile isJsonWs

def isDigitCh (c : Char) : Bool := 47 < c.toNat && c.toNat < 58

def digitVal (c : Char) : Nat := c.toNat - 48

def hexVal (c : Char) : Option Nat :=
  let n := c.toNat
  if 47 < n ∧ n < 58 then some (n - 48)
  else if 96 < n ∧ n < 103 then some (n - 87)
  else if 64 < n ∧ n < 71 then some (n - 55)
  else none

def escCharOf (e : Char) : Option Char :=
  if e = '"' then some '"'
  else if e = '\\' then some '\\'
  else if e = '/' then some '/'
  else if e = 'b' then some (Char.ofNat 8)
  else if e = 'f' then some (Char.ofNat 12)
  else if e = 'n' then some '\n'
  else if e = 'r' then some '\r'
  else if e = 't' then some '\t'
  else none

/-- Parse the body of a JSON string literal (after the opening quote),
returning the decoded characters and the rest of the input. -/
def parseStringBody : List Char → Option (List Char × List Char)
  | [] => none
  | c :: rest =>
    if c = '"' then some ([], rest)
    else if c = '\\' then
      match rest with
      | [] => none
      | e :: r2 =>
        if e = 'u' then
          match r2 with
          | h1 :: h2 :: h3 :: h4 :: r3 =>
            match hexVal h1, hexVal h2, hexVal h3, hexVal h4 with
            | some a, some b, some c2, some d =>
              match parseStringBody r3 with
              | some (s, rem) =>
                some (Char.ofNat (0x1000 * a + 0x100 * b + 0x10 * c2 + d) :: s, rem)
              | none => none
            | _, _, _, _ => none
          | _ => none
        else
          match escCharOf e with
          | some ec =>
            match parseStringBody r2 with
            | some (s, rem) => some (ec :: s, rem)
            | none => none
          | none => none
    else if c.toNat < 0x20 then none
    else
      match parseStringBody rest with
      | some (s, rem) => some (c :: s, rem)
      | none => none

def digitsToNat (ds : List Char) : Nat := ds.foldl (fun acc c => 10 * acc + digitVal c) 0

/-- Parse a JSON number literal. -/
def parseNumLit (s : List Char) : Option (Json × List Char) :=
  let neg := s.headD ' ' = '-'
  let s1 := if neg then s.tail else s
  let ds := s1.takeWhile isDigitCh
  let s2 := s1.dropWhile isDigitCh
  if ds = [] then none
  else if 1 < ds.length ∧ ds.headD '0' = '0' then none
  else
    let hasFrac := s2.headD ' ' = '.'
    let fs := if hasFrac then s2.tail.takeWhile isDigitCh else []
    let s3 := if hasFrac then s2.tail.dropWhile isDigitCh else s2
    if hasFrac ∧ fs = [] then none
    else
      let mant : Int := (if neg then -1 else 1) * Int.ofNat (digitsToNat (ds ++ fs))
      let hasExp := s3.headD ' ' = 'e' ∨ s3.headD ' ' = 'E'
      if ¬ hasExp then some (Json.num mant (-(Int.ofNat fs.length)), s3)
      else
        let s4 := s3.tail
        let eneg := s4.headD ' ' = '-'
        let s5 := if eneg ∨ s4.headD ' ' = '+' then s4.tail else s4
        let es := s5.takeWhile isDigitCh
        let s6 := s5.dropWhile isDigitCh
        if es = [] then none
        else
          let e : Int := (if eneg then -1 else 1) * Int.ofNat (digitsToNat es)
          some (Json.num mant (e - Int.ofNat fs.length), s6)

/-- The two brace characters (written via code points to keep string and
character literals brace-free). -/
def braceOpen : Char := Char.ofNat 0x7B

def braceClose : Char := Char.ofNat 0x7D

/-- Grammar production selector for the fuel-indexed JSON parser. -/
inductive PMode where
  | val : PMode
  | arrItems : PMode
  | arrMore : PMode
  | objItems : PMode
  | objMore : PMode

/-- Fuel-indexed recursive JSON parser.  `arrItems`/`objItems` parse the
inside of an array/object (allowing an immediate close), `arrMore`/`objMore`
require at least one further element (so trailing commas are rejected). -/
def parseP : Nat → PMode → List Char → Option (Json × List Char)
  | 0, _, _ => none
  | Nat.succ f, PMode.val, s0 =>
    let s := skipWs s0
    match s with
    | [] => none
    | c :: rest =>
      if c = braceOpen then parseP f PMode.objItems rest
      else if c = '[' then parseP f PMode.arrItems rest
      else if c = '"' then
        match parseStringBody rest with
        | some (cs, rem) => some (Json.str cs, rem)
        | none => none
      else if ("true".data).isPrefixOf s then some (Json.bool true, s.drop 4)
      else if ("false".data).isPrefixOf s then some (Json.bool false, s.drop 5)
      else if ("null".data).isPrefixOf s then some (Json.null, s.drop 4)
      else parseNumLit s
  | Nat.succ f, PMode.arrItems, s0 =>
    let s1 := skipWs s0
    if s1.headD ' ' = ']' then some (Json.arr [], s1.tail)
    else parseP f PMode.arrMore s0
  | Nat.succ f, PMode.arrMore, s0 =>
    match parseP f PMode.val s0 with
    | none => none
    | some (j, rem) =>
      let rem1 := skipWs rem
      if rem1.headD ' ' = ',' then
        match parseP f PMode.arrMore rem1.tail with
        | some (Json.arr l, rem2) => some (Json.arr (j :: l), rem2)
        | _ => none
      else if rem1.headD ' ' = ']' then some (Json.arr [j], rem1.tail)
      else none
  | Nat.succ f, PMode.objItems, s0 =>
    let s1 := skipWs s0
    if s1.headD ' ' = braceClose then some (Json.obj [], s1.tail)
    else parseP f PMode.objMore s0
  | Nat.succ f, PMode.objMore, s0 =>
    let s1 := skipWs s0
    if s1.headD ' ' = '"' then
      match parseStringBody s1.tail with
      | none => none
      | some (k, rem) =>
        let rem1 := skipWs rem
        if rem1.headD ' ' = ':' then
          match parseP f PMode.val rem1.tail with
          | none => none
          | some (v, rem2) =>
            let rem3 := skipWs rem2
            if rem3.headD ' ' = ',' then
              match parseP f PMode.objMore rem3.tail with
              | some (Json.obj l, rem4) => some (Json.obj ((k, v) :: l), rem4)
              | _ => none
            else if rem3.headD ' ' = braceClose then some (Json.obj [(k, v)], rem3.tail)
            else none
        else none
    else none

/-- Model of `JSON.parse`: a value followed only by whitespace. -/
def parseJson (s : List Char) : Option Json :=
  match parseP (4 * s.length + 16) PMode.val s with
  | some (j, rem) => if skipWs rem = [] then some j else none
  | none => none

/-! ### Provider adapters -/

/-- One parsed stream payload's extracted deltas (`StreamChunk` in the
source).  By construction of the adapters each present field is truthy. -/
structure StreamChunk where
  content : Option Json
  reasoning : Option Json

structure APIRequestConfig where
  url : List Char
  headers : List (List Char × List Char)
  body : Json

/-- The stored AI configuration (`aiConfig`); `apiKeys` is an object read by
dynamic key.  Fields the gateway never reads (`baseUrls`, `replyLanguage`)
are omitted. -/
structure AIConfig where
  provider : List Char
  apiKeys : List (List Char × List Char)
  model : List Char
  baseUrl : Option (List Char)
  customModel : Option (List Char)

def strLookup (k : List Char) : List (List Char × List Char) → Option (List Char)
  | [] => none
  | (k0, v) :: rest => if k0 = k then some v else strLookup k rest

/-- JavaScript `a || b` for an optional string `a`. -/
def jsOrOptStr (a : Option (List Char)) (b : List Char) : List Char :=
  match a with
  | some s => if s = [] then b else s
  | none => b

/-- The four-method provider contract (`ProviderConfig` in the source). -/
structure ProviderConfig where
  getDefaultBaseUrl : List Char
  buildRequestConfig :
    AIConfig → List Char → List Char → List Char → List Char → Bool → APIRequestConfig
  extractContent : Json → List Char
  parseStreamChunk : Json → StreamChunk

def openAIBuildRequestConfig (config : AIConfig) (systemPrompt userPrompt model apiKey : List Char)
    (stream : Bool) : APIRequestConfig :=
  let baseUrl := jsOrOptStr config.baseUrl ("https://api.openai.com/v1".data)
  let messages :=
    (if systemPrompt = [] then []
     else [Json.obj [("role".data, Json.str ("system".data)),
                     ("content".data, Json.str systemPrompt)]]) ++
    [Json.obj [("role".data, Json.str ("user".data)),
               ("content".data, Json.str userPrompt)]]
  { url := baseUrl ++ "/chat/completions".data
    headers := [("Content-Type".data, "application/json".data),
                ("Authorization".data, "Bearer ".data ++ apiKey)]
    body := Json.obj [("model".data, Json.str model),
                      ("messages".data, Json.arr messages),
                      ("temperature".data, Json.num 3 (-1)),
                      ("stream".data, Json.bool stream)] }

def openAIContentPath (chunk : Json) : Option Json :=
  jsGetQ (jsGetQ (jsIdxQ (jsGetQ (some chunk) ("choices".data)) 0) ("delta".data)) ("content".data)

def openAIReasoningContentPath (chunk : Json) : Option Json :=
  jsGetQ (jsGetQ (jsIdxQ (jsGetQ (some chunk) ("choices".data)) 0) ("delta".data)) ("reasoning_content".data)

def openAIReasoningPath (chunk : Json) : Option Json :=
  jsGetQ (jsGetQ (jsIdxQ (jsGetQ (some chunk) ("choices".data)) 0) ("delta".data)) ("reasoning".data)

/-- `chunk?.choices?.[0]?.delta?.content || null` and
`...reasoning_content || ...reasoning || null`. -/
def openAIParseStreamChunk (chunk : Json) : StreamChunk :=
  { content := jsOrNull (openAIContentPath chunk)
    reasoning :=
      match jsOrNull (openAIReasoningContentPath chunk) with
      | some v => some v
      | none => jsOrNull (openAIReasoningPath chunk) }

def openAIExtractContent (response : Json) : List Char :=
  match jsOrNull (jsGetQ (jsGetQ (jsIdxQ (jsGetQ (some response) ("choices".data)) 0)
      ("message".data)) ("content".data)) with
  | some (Json.str s) => s
  | _ => []

def openAIProvider : ProviderConfig :=
  { getDefaultBaseUrl := "https://api.openai.com/v1".data
    buildRequestConfig := openAIBuildRequestConfig
    extractContent := openAIExtractContent
    parseStreamChunk := openAIParseStreamChunk }

/-- `model.startsWith("models/") ? model : "models/" + model`. -/
def geminiFullModelName (model : List Char) : List Char :=
  if ("models/".data).isPrefixOf model then model else "models/".data ++ model

def geminiBuildRequestConfig (config : AIConfig) (systemPrompt userPrompt model apiKey : List Char)
    (stream : Bool) : APIRequestConfig :=
  let baseUrl := jsOrOptStr config.baseUrl ("https://generativelanguage.googleapis.com/v1beta".data)
  let fullModelName := geminiFullModelName model
  let combinedPrompt :=
    if systemPrompt = [] then userPrompt
    else systemPrompt ++ "\n\n".data ++ userPrompt
  let action := if stream then "streamGenerateContent".data else "generateContent".data
  let queryParams :=
    if stream then "key=".data ++ apiKey ++ "&alt=sse".data else "key=".data ++ apiKey
  { url := baseUrl ++ "/".data ++ fullModelName ++ ":".data ++ action ++ "?".data ++ queryParams
    headers := [("Content-Type".data, "application/json".data)]
    body := Json.obj
      [("contents".data, Json.arr [Json.obj [("parts".data,
          Json.arr [Json.obj [("text".data, Json.str combinedPrompt)]])]]),
       ("generationConfig".data, Json.obj
          [("temperature".data, Json.num 3 (-1)),
           ("responseMimeType".data, Json.str ("application/json".data))])] }

def geminiParseStreamChunk (chunk : Json) : StreamChunk :=
  { content := jsOrNull (jsGetQ (jsIdxQ (jsGetQ (jsGetQ (jsIdxQ
      (jsGetQ (some chunk) ("candidates".data)) 0) ("content".data)) ("parts".data)) 0)
      ("text".data))
    reasoning := none }

def geminiExtractContent (response : Json) : List Char :=
  match jsOrNull (jsGetQ (jsIdxQ (jsGetQ (jsGetQ (jsIdxQ
      (jsGetQ (some response) ("candidates".data)) 0) ("content".data)) ("parts".data)) 0)
      ("text".data)) with
  | some (Json.str s) => s
  | _ => []

def geminiProvider : ProviderConfig :=
  { getDefaultBaseUrl := "https://generativelanguage.googleapis.com/v1beta".data
    buildRequestConfig := geminiBuildRequestConfig
    extractContent := geminiExtractContent
    parseStreamChunk := geminiParseStreamChunk }

def claudeBuildRequestConfig (config : AIConfig) (systemPrompt userPrompt model apiKey : List Char)
    (stream : Bool) : APIRequestConfig :=
  let baseUrl := jsOrOptStr config.baseUrl ("https://api.anthropic.com/v1".data)
  { url := baseUrl ++ "/messages".data
    headers := [("Content-Type".data, "application/json".data),
                ("x-api-key".data, apiKey),
                ("anthropic-version".data, "2023-06-01".data)]
    body := Json.obj [("model".data, Json.str model),
                      ("system".data, Json.str systemPrompt),
                      ("messages".data, Json.arr
                        [Json.obj [("role".data, Json.str ("user".data)),
                                   ("content".data, Json.str userPrompt)]]),
                      ("stream".data, Json.bool stream)] }

/-- Claude: only `content_block_delta` events carry text. -/
def claudeParseStreamChunk (chunk : Json) : StreamChunk :=
  match jsGetQ (some chunk) ("type".data) with
  | some (Json.str t) =>
    if t = "content_block_delta".data then
      { content := jsOrNull (jsGetQ (jsGetQ (some chunk) ("delta".data)) ("text".data))
        reasoning := none }
    else { content := none, reasoning := none }
  | _ => { content := none, reasoning := none }

def claudeExtractContent (response : Json) : List Char :=
  match jsOrNull (jsGetQ (jsIdxQ (jsGetQ (some response) ("content".data)) 0) ("text".data)) with
  | some (Json.str s) => s
  | _ => []

def claudeProvider : ProviderConfig :=
  { getDefaultBaseUrl := "https://api.anthropic.com/v1".data
    buildRequestConfig := claudeBuildRequestConfig
    extractContent := claudeExtractContent
    parseStreamChunk := claudeParseStreamChunk }

/-- The provider registry of `BackgroundAIService`. -/
def providers (key : List Char) : Option ProviderConfig :=
  if key = "openai".data then some openAIProvider
  else if key = "openai-compatible".data then some openAIProvider
  else if key = "gemini".data then some geminiProvider
  else if key = "claude".data then some claudeProvider
  else if key = "openrouter".data then some openAIProvider
  else none

/-! ### The decode loop of `BackgroundAIService.streamAI` -/

/-- The per-line body of the decode loop: trim, skip blank lines, handle the
`data: ` prefix, skip the `[DONE]` sentinel, parse JSON (a failure is logged
and skipped), extract the deltas and apply the emission guard
`if (chunkData.content || chunkData.reasoning)`. -/
def emitLine (provider : ProviderConfig) (line : List Char) : Option StreamChunk :=
  let trimmedLine := jsTrim line
  if trimmedLine = [] then none
  else if ("data: ".data).isPrefixOf trimmedLine then
    let dataStr := trimmedLine.drop 6
    if dataStr = "[DONE]".data then none
    else
      match parseJson dataStr with
      | none => none
      | some data =>
        let chunkData := provider.parseStreamChunk data
        if jsTruthyOpt chunkData.content || jsTruthyOpt chunkData.reasoning then
          some chunkData
        else none
  else none

/-- The guard-and-extract stage applied to one parse result (used to state
per-line properties; `emitLine` inlines it after the prefix handling). -/
def emitPayload (provider : ProviderConfig) (parsed : Option Json) : Option StreamChunk :=
  match parsed with
  | none => none
  | some data =>
    let chunkData := provider.parseStreamChunk data
    if jsTruthyOpt chunkData.content || jsTruthyOpt chunkData.reasoning then
      some chunkData
    else none

/-- `buffer += chunk; lines = buffer.split("\n"); buffer = lines.pop() || ""`:
the complete lines and the new residual buffer. -/
def lineStep (buffer chunkText : List Char) : List (List Char) × List Char :=
  let lines := splitNl (buffer ++ chunkText)
  (lines.dropLast, lines.getLastD [])

/-- Decoder-loop state: `TextDecoder` state plus the residual text buffer. -/
structure DecState where
  u : Utf8State
  buf : List Char

def initDecState : DecState := ⟨utf8Init, []⟩

/-- One iteration of the read loop on a byte chunk: decode, buffer, split,
and process every complete line in order. -/
def feedChunk (provider : ProviderConfig) (st : DecState) (value : List Nat) :
    List StreamChunk × DecState :=
  let d := decodeChunk st.u value
  let l := lineStep st.buf d.1
  (l.1.filterMap (emitLine provider), ⟨d.2, l.2⟩)

/-- Run the decode loop over a list of byte chunks, collecting the emitted
deltas in order. -/
def feedAll (provider : ProviderConfig) : DecState → List (List Nat) → List StreamChunk × DecState
  | st, [] => ([], st)
  | st, c :: cs =>
    let r := feedChunk provider st c
    let rest := feedAll provider r.2 cs
    (r.1 ++ rest.1, rest.2)

/-! ### The gateway: callback calls, fetch outcomes, event delivery -/

/-- One result of `reader.read()`: a data chunk, or a rejection because the
request's `AbortSignal` fired (after `controller.abort()` every pending and
future read of the aborted generation rejects; the end of the list models
`done: true`). -/
inductive ReadEvent where
  | data : List Nat → ReadEvent
  | abortRead : ReadEvent

/-- One invocation of the `onChunk`/`onDone`/`onError` callbacks. -/
inductive CBCall where
  | chunk : StreamChunk → CBCall
  | done : CBCall
  | error : List Char → CBCall

def abortErrMsg : List Char := "AbortError".data

/-- The read loop of `streamAI`: emit deltas per chunk; on end of stream call
`onDone`; a rejected read throws into the catch block, which calls
`onError`. -/
def streamLoop (provider : ProviderConfig) : DecState → List ReadEvent → List CBCall
  | _, [] => [CBCall.done]
  | st, ReadEvent.data value :: rest =>
    let r := feedChunk provider st value
    r.1.map CBCall.chunk ++ streamLoop provider r.2 rest
  | _, ReadEvent.abortRead :: _ => [CBCall.error abortErrMsg]

/-- Outcome of `fetch(requestConfig.url, ...)`. -/
inductive FetchOutcome where
  | ok : List ReadEvent → FetchOutcome
  | httpError : Nat → List Char → List Char → FetchOutcome
  | noReader : FetchOutcome
  | reject : List Char → FetchOutcome

/-- Model of `BackgroundAIService.streamAI`.  Returns the sequence of
callback invocations and whether `fetch` was reached. -/
def streamAI (config : Option AIConfig) (fetch : APIRequestConfig → FetchOutcome)
    (systemPrompt userPrompt : List Char) : List CBCall × Bool :=
  match config with
  | none => ([CBCall.error ("AI功能未配置".data)], false)
  | some cfg =>
    match strLookup cfg.provider cfg.apiKeys with
    | none => ([CBCall.error ("AI功能未配置".data)], false)
    | some apiKey =>
      if apiKey = [] then ([CBCall.error ("AI功能未配置".data)], false)
      else
        match providers cfg.provider with
        | none => ([CBCall.error ("不支持的AI服务商: ".data ++ cfg.provider)], false)
        | some provider =>
          let model := jsOrOptStr cfg.customModel cfg.model
          let requestConfig := provider.buildRequestConfig cfg systemPrompt userPrompt model apiKey true
          match fetch requestConfig with
          | FetchOutcome.reject msg => ([CBCall.error msg], true)
          | FetchOutcome.httpError status statusText body =>
            ([CBCall.error (cfg.provider ++ " API请求失败: ".data ++ Nat.toDigits 10 status
               ++ " ".data ++ statusText ++ " - ".data ++ body)], true)
          | FetchOutcome.noReader => ([CBCall.error ("无法获取响应流".data)], true)
          | FetchOutcome.ok reads => (streamLoop provider initDecState reads, true)

/-- Events crossing the session channel. -/
inductive GatewayEvent where
  | chunk : Option Json → Option Json → GatewayEvent
  | done : GatewayEvent
  | error : List Char → GatewayEvent

/-- The `AI_STREAM` port listener's callback wrappers, as functions of the
generation's `signal.aborted` flag at the time the callback runs: `onChunk`
and `onDone` post unconditionally, `onError` returns without posting when
`signal.aborted` is set. -/
def deliverCall (aborted : Bool) : CBCall → Option GatewayEvent
  | CBCall.chunk c => some (GatewayEvent.chunk c.content c.reasoning)
  | CBCall.done => some GatewayEvent.done
  | CBCall.error e => if aborted then none else some (GatewayEvent.error e)

def deliveredEvents (aborted : Bool) (calls : List CBCall) : List GatewayEvent :=
  calls.filterMap (deliverCall aborted)

/-! ### `formatSubtitlesForAI` -/

/-- Property access `j.k` as an expression that can throw: reading a
property of `null` (or `undefined`) raises a TypeError. -/
def jsGetProp (j : Json) (k : List Char) : Except (List Char) (Option Json) :=
  match j with
  | Json.null => Except.error ("TypeError".data)
  | Json.obj fields => Except.ok (jsLookup k fields)
  | _ => Except.ok none

/-- `(subtitle.text || subtitle.content || subtitle.transcript || "").trim()`:
calling `.trim()` on a truthy non-string value raises a TypeError. -/
def subtitleText (subtitle : Json) : Except (List Char) (List Char) := do
  let t ← jsGetProp subtitle ("text".data)
  let v ←
    if jsTruthyOpt t then pure t
    else do
      let c ← jsGetProp subtitle ("content".data)
      if jsTruthyOpt c then pure c
      else do
        let tr ← jsGetProp subtitle ("transcript".data)
        if jsTruthyOpt tr then pure tr else pure (some (Json.str []))
  match v with
  | some (Json.str s) => Except.ok (jsTrim s)
  | _ => Except.error ("TypeError".data)

/-- The adjacent-duplicate filter
`filter((text, index, array) => index == 0 || text !== array[index-1])`. -/
def dedupAdjacentGo (prev : List Char) : List (List Char) → List (List Char)
  | [] => []
  | t :: rest =>
    if t = prev then dedupAdjacentGo t rest else t :: dedupAdjacentGo t rest

def dedupAdjacent : List (List Char) → List (List Char)
  | [] => []
  | t :: rest => t :: dedupAdjacentGo t rest

/-- The short-sentence merging reducer. -/
def mergeShort (acc : List (List Char)) (current : List Char) : List (List Char) :=
  match acc with
  | [] => [current]
  | _ :: _ =>
    let last := acc.getLastD []
    if current.length < 20 ∧ last.length < 50 then
      acc.dropLast ++ [last ++ " ".data ++ current]
    else acc ++ [current]

/-- `replace(/\s+/g, " ")`: collapse each maximal whitespace run to one space. -/
def collapseWsGo (inRun : Bool) : List Char → List Char
  | [] => []
  | c :: rest =>
    if isJsWs c then
      if inRun then collapseWsGo true rest else ' ' :: collapseWsGo true rest
    else c :: collapseWsGo false rest

/-- `s.lastIndexOf(ch)` (as an index, `none` for −1). -/
def lastIdxOf (ch : Char) : List Char → Option Nat
  | [] => none
  | c :: cs =>
    match lastIdxOf ch cs with
    | some i => some (i + 1)
    | none => if c = ch then some 0 else none

def jsIdx (o : Option Nat) : Int :=
  match o with
  | some i => (i : Int)
  | none => -1

/-- The length-limiting tail of the formatter: return the formatted text
unchanged when it fits in 8000 characters, otherwise cut at the last
full-width period (or space) found after position 7000 in the first 8000
characters, or hard-cut at 8000, and trim again. -/
def truncateFormatted (formattedText : List Char) : List Char :=
  if formattedText.length ≤ 8000 then formattedText
  else
    let truncated := formattedText.take 8000
    let lastPeriod := jsIdx (lastIdxOf '。' truncated)
    let lastSpace := jsIdx (lastIdxOf ' ' truncated)
    let cutPoint : Int :=
      if 7000 < lastPeriod then lastPeriod + 1
      else if 7000 < lastSpace then lastSpace
      else 8000
    jsTrim (formattedText.take cutPoint.toNat)

/-- The pure formatting pipeline applied to the extracted per-subtitle
texts: filter empties, drop adjacent duplicates, merge short sentences,
join with spaces, collapse whitespace, trim, and limit the length. -/
def formatCore (texts : List (List Char)) : List Char :=
  let step1 := texts.filter (fun t => 0 < t.length)
  let step2 := dedupAdjacent step1
  let step3 := step2.foldl mergeShort []
  let joined := List.intercalate (" ".data) step3
  truncateFormatted (jsTrim (collapseWsGo false joined))

/-- Model of `BackgroundAIService.formatSubtitlesForAI`. -/
def formatSubtitlesForAI (subtitles : Json) : Except (List Char) (List Char) :=
  match subtitles with
  | Json.arr l =>
    if l.isEmpty then Except.error ("字幕数据为空或格式不正确".data)
    else
      match l.mapM subtitleText with
      | Except.error e => Except.error e
      | Except.ok texts => Except.ok (formatCore texts)
  | _ => Except.error ("字幕数据为空或格式不正确".data)

/-! ### Derived definitions and concrete fixtures used by the claims -/

/-- The complete lines produced by decoding one byte chunk from the initial
state (the residual fragment is withheld in the buffer). -/
def completeLinesOf (bytes : List Nat) : List (List Char) :=
  (lineStep [] (decodeChunk utf8Init bytes).1).1

/-- UTF-8 bytes of an ASCII string literal. -/
def asBytes (s : String) : List Nat := s.data.map Char.toNat

def c3Line : List Char := "\x7b\"choices\":[\x7b\"delta\":\x7b\"content\":\"X\"\x7d\x7d]\x7d".data

def c5Bad : List Char := "data: \x7boops".data

def c5Good : List Char := "data: \x7b\"choices\":[\x7b\"delta\":\x7b\"content\":\"Y\"\x7d\x7d]\x7d".data

def c5Bytes : List Nat :=
  asBytes "data: \x7boops\ndata: \x7b\"choices\":[\x7b\"delta\":\x7b\"content\":\"Y\"\x7d\x7d]\x7d\n"

def c6Config : AIConfig :=
  { provider := "openai".data
    apiKeys := [("openai".data, "k".data)]
    model := "gpt-x".data
    baseUrl := none
    customModel := none }

def c6Stream : List Nat :=
  asBytes "data: \x7b\"choices\":[\x7b\"delta\":\x7b\"content\":\"Hel\"\x7d\x7d]\x7d\n\ndata: \x7b\"choices\":[\x7b\"delta\":\x7b\"content\":\"lo\"\x7d\x7d]\x7d\n\ndata: [DONE]\n\n"

def c7Config : AIConfig :=
  { provider := "claude".data
    apiKeys := []
    model := "m".data
    baseUrl := none
    customModel := none }

def c8Payload : Json :=
  Json.obj [("choices".data,
    Json.arr [Json.obj [("delta".data, Json.obj [("content".data, Json.str [])])]])]

def c10Good : Json := Json.arr [Json.obj [("text".data, Json.str ("hi".data))]]

/-! ### Structural lemmas: the decode loop is chunking-invariant -/

theorem splitNl_shape (l : List Char) : ∃ x xs, splitNl l = x :: xs := by
  induction l with
  | nil => exact ⟨[], [], rfl⟩
  | cons c cs ih =>
    obtain ⟨x, xs, h⟩ := ih
    by_cases hc : c = '\n'
    · exact ⟨[], x :: xs, by simp [splitNl, h, hc]⟩
    · exact ⟨c :: x, xs, by simp [splitNl, h, hc]⟩

theorem splitNl_append (a b : List Char) :
    splitNl (a ++ b) =
      (splitNl a).dropLast ++
        ((splitNl a).getLastD [] ++ (splitNl b).headD []) :: (splitNl b).tail := by
  obtain ⟨m, ms, hb⟩ := splitNl_shape b
  induction a with
  | nil => simp [splitNl, hb]
  | cons c as ih =>
    obtain ⟨l', ls', ha'⟩ := splitNl_shape as
    rw [List.cons_append]
    simp only [splitNl]
    rw [ih, ha', hb]
    by_cases hc : c = '\n'
    · subst hc
      cases ls' <;> simp [List.getLastD_cons]
    · cases ls' <;> simp [hc, List.getLastD_cons]

theorem splitNl_of_no_nl (l : List Char) (h : '\n' ∉ l) : splitNl l = [l] := by
  induction l with
  | nil => rfl
  | cons c cs ih =>
    have hc : c ≠ '\n' := fun hh => h (hh ▸ List.mem_cons_self c cs)
    have hcs : '\n' ∉ cs := fun hh => h (List.mem_cons_of_mem c hh)
    simp [splitNl, ih hcs, hc]

theorem splitNl_last_no_nl (l : List Char) : '\n' ∉ (splitNl l).getLastD [] := by
  induction l with
  | nil => simp [splitNl]
  | cons c cs ih =>
    obtain ⟨x, xs, h⟩ := splitNl_shape cs
    rw [h] at ih
    by_cases hc : c = '\n'
    · simp [splitNl, h, hc, List.getLastD_cons]
      cases xs <;> simpa [List.getLastD_cons] using ih
    · simp [splitNl, h, hc]
      cases xs with
      | nil =>
        simp [List.getLastD_cons] at ih ⊢
        exact ⟨fun hh => hc hh.symm, ih⟩
      | cons y ys => simpa [List.getLastD_cons] using ih

theorem getLastD_append_cons {α : Type} (x : α) (xs : List α) :
    ∀ (A : List α) (d : α), (A ++ x :: xs).getLastD d = (x :: xs).getLastD d := by
  intro A
  induction A with
  | nil => intro d; rfl
  | cons a as ih =>
    intro d
    rw [List.cons_append, List.getLastD_cons, ih a, List.getLastD_cons, List.getLastD_cons]

theorem lineStep_append (buf t1 t2 : List Char) :
    lineStep buf (t1 ++ t2) =
      ((lineStep buf t1).1 ++ (lineStep (lineStep buf t1).2 t2).1,
       (lineStep (lineStep buf t1).2 t2).2) := by
  obtain ⟨m, ms, hb⟩ := splitNl_shape t2
  have hres : '\n' ∉ (splitNl (buf ++ t1)).getLastD [] := splitNl_last_no_nl _
  have hq : splitNl ((splitNl (buf ++ t1)).getLastD [] ++ t2)
      = ((splitNl (buf ++ t1)).getLastD [] ++ m) :: ms := by
    rw [splitNl_append _ t2, splitNl_of_no_nl _ hres, hb]
    simp
  have hS : splitNl (buf ++ t1 ++ t2)
      = (splitNl (buf ++ t1)).dropLast ++ ((splitNl (buf ++ t1)).getLastD [] ++ m) :: ms := by
    rw [splitNl_append (buf ++ t1) t2, hb]
    simp
  simp only [lineStep]
  rw [← List.append_assoc, hS, hq]
  refine Prod.ext ?_ ?_
  · simp [List.dropLast_append_cons]
  · exact getLastD_append_cons _ _ _ _

theorem decodeChunk_append (st : Utf8State) (b1 b2 : List Nat) :
    decodeChunk st (b1 ++ b2) =
      ((decodeChunk st b1).1 ++ (decodeChunk (decodeChunk st b1).2 b2).1,
       (decodeChunk (decodeChunk st b1).2 b2).2) := by
  induction b1 generalizing st with
  | nil => simp [decodeChunk]
  | cons b bs ih =>
    simp [decodeChunk, ih]

theorem feedChunk_append (provider : ProviderConfig) (st : DecState) (c1 c2 : List Nat) :
    feedChunk provider st (c1 ++ c2) =
      ((feedChunk provider st c1).1 ++ (feedChunk provider (feedChunk provider st c1).2 c2).1,
       (feedChunk provider (feedChunk provider st c1).2 c2).2) := by
  simp only [feedChunk, decodeChunk_append, lineStep_append, List.filterMap_append]

theorem feedChunk_buf_no_nl (provider : ProviderConfig) (st : DecState) (c : List Nat) :
    '\n' ∉ (feedChunk provider st c).2.buf := by
  simp only [feedChunk, lineStep]
  exact splitNl_last_no_nl _

theorem feedChunk_nil (provider : ProviderConfig) (st : DecState) (h : '\n' ∉ st.buf) :
    feedChunk provider st [] = ([], st) := by
  simp [feedChunk, decodeChunk, lineStep, splitNl_of_no_nl st.buf h, List.getLastD_cons]

theorem feedAll_eq_feedChunk_join (provider : ProviderConfig) :
    ∀ (cs : List (List Nat)) (st : DecState), '\n' ∉ st.buf →
      feedAll provider st cs = feedChunk provider st cs.flatten := by
  intro cs
  induction cs with
  | nil =>
    intro st h
    rw [List.flatten_nil, feedChunk_nil provider st h]
    rfl
  | cons c cs' ih =>
    intro st h
    rw [List.flatten_cons, feedChunk_append]
    simp only [feedAll]
    rw [ih (feedChunk provider st c).2 (feedChunk_buf_no_nl provider st c)]

/-- Claim C1: for every partition of a byte stream into chunks — however the
split falls relative to line boundaries or multi-byte UTF-8 sequences —
running the decode loop of `streamAI` (incremental `TextDecoder`, residual
buffer, newline split, per-line processing) over the chunks piecewise emits
exactly the same deltas, in the same order, as running it over the whole
stream as a single chunk.  (Proved for every byte stream, well-formed or
not.) -/
theorem piecewise_decode_eq_whole (provider : ProviderConfig) (chunks : List (List Nat)) :
    (feedAll provider initDecState chunks).1
      = (feedChunk provider initDecState chunks.flatten).1 := by
  rw [feedAll_eq_feedChunk_join provider chunks initDecState (by simp [initDecState])]

/-- Claim C2: once a generation's cancellation token is aborted (the port
disconnected, or a new message on the same port replaced the controller and
called `controller.abort()`), no further chunk, done, or error event is
delivered to the session for that generation.  Model: after `abort()` every
subsequent `reader.read()` of that generation rejects (the `AbortSignal` is
passed to `fetch`), and — since the page's microtask queue drains before the
next listener task runs — no already-resolved read of the old generation is
still pending when the abort happens, so the abort point in the read
sequence is `ReadEvent.abortRead`.  The equation shows that the only
callback invoked from the abort onwards is `onError` with the abort failure
(later reads are never processed), and the delivery conjunct shows the
listener's stale-error guard (`if (signal.aborted) return`) discards it, so
the abort is also never reported as an error event. -/
theorem no_events_after_abort (provider : ProviderConfig) (st : DecState)
    (datas : List (List Nat)) (rest : List ReadEvent) :
    streamLoop provider st (datas.map ReadEvent.data ++ ReadEvent.abortRead :: rest)
      = (feedAll provider st datas).1.map CBCall.chunk ++ [CBCall.error abortErrMsg]
    ∧ deliveredEvents true [CBCall.error abortErrMsg] = [] := by
  constructor
  · induction datas generalizing st with
    | nil => rfl
    | cons d ds ih =>
      simp only [List.map_cons, List.cons_append, streamLoop, feedAll, List.append_eq]
      rw [ih]
      simp [List.map_append, List.append_assoc]
  · rfl

theorem isPrefixOf_data_ne_nil {t : List Char}
    (h : ("data: ".data).isPrefixOf t = true) : t ≠ [] := by
  intro h0
  rw [h0] at h
  exact absurd h (by decide)

/-- Claim C3 counterexample: a trimmed, non-blank line that does not carry
the `data: ` prefix is NOT offered to the JSON parser — the decode loop
skips it entirely, even though the very same text parses as JSON and would
produce a delta-bearing chunk (as the prefixed variant shows).  This
refutes the claim's final parenthetical. -/
theorem nonprefixed_line_skipped_unparsed :
    emitLine openAIProvider c3Line = none
    ∧ emitPayload openAIProvider (parseJson c3Line)
        = some { content := some (Json.str ("X".data)), reasoning := none }
    ∧ emitLine openAIProvider ("data: ".data ++ c3Line)
        = some { content := some (Json.str ("X".data)), reasoning := none } :=
  ⟨rfl, rfl, rfl⟩

/-- Claim C3 (amended): for every complete line produced by the newline
split, the line is trimmed; blank lines are skipped; on lines starting with
`data: ` the prefix is stripped, the `[DONE]` sentinel is skipped, and
otherwise the remaining text is parsed as JSON (feeding the guard-and-emit
stage); a trimmed non-blank line WITHOUT the `data: ` prefix is skipped
without being offered to the JSON parser. -/
theorem emitLine_cases (provider : ProviderConfig) (line : List Char) :
    (jsTrim line = [] → emitLine provider line = none)
    ∧ (("data: ".data).isPrefixOf (jsTrim line) = true →
        (jsTrim line).drop 6 = "[DONE]".data → emitLine provider line = none)
    ∧ (("data: ".data).isPrefixOf (jsTrim line) = true →
        (jsTrim line).drop 6 ≠ "[DONE]".data →
        emitLine provider line = emitPayload provider (parseJson ((jsTrim line).drop 6)))
    ∧ (jsTrim line ≠ [] → ("data: ".data).isPrefixOf (jsTrim line) = false →
        emitLine provider line = none) := by
  refine ⟨?_, ?_, ?_, ?_⟩
  · intro h0
    simp [emitLine, h0]
  · intro hp hd
    have hne := isPrefixOf_data_ne_nil hp
    simp [emitLine, hne, hp, hd]
  · intro hp hd
    have hne := isPrefixOf_data_ne_nil hp
    simp only [emitLine, if_neg hne, hp, if_true, if_neg hd]
    cases hpj : parseJson ((jsTrim line).drop 6) <;> simp [emitPayload, hpj]
  · intro h1 h2
    simp [emitLine, h1, h2]

/-- Witness for the amended C3: the non-blank unprefixed line "hello" is
skipped. -/
theorem emitLine_cases_witness : emitLine openAIProvider ("hello".data) = none :=
  (emitLine_cases openAIProvider ("hello".data)).2.2.2 (by decide) (by decide)

theorem emitLine_none_of_parse_fail (provider : ProviderConfig) (bad : List Char)
    (hp : ("data: ".data).isPrefixOf (jsTrim bad) = true)
    (hparse : parseJson ((jsTrim bad).drop 6) = none) :
    emitLine provider bad = none := by
  have hne := isPrefixOf_data_ne_nil hp
  by_cases hd : (jsTrim bad).drop 6 = "[DONE]".data
  · simp [emitLine, hne, hp, hd]
  · simp [emitLine, hne, hp, hd, hparse]

/-- Claim C5: a line whose payload is not valid JSON is skipped without
aborting the stream and without any error event: the run still processes
every other complete line in order (the preceding and following lines
contribute their deltas via `emitLine` exactly as without the bad line) and
still terminates with the done callback. -/
theorem malformed_line_skipped (provider : ProviderConfig) (bytes : List Nat)
    (pre : List (List Char)) (bad : List Char) (suf : List (List Char))
    (hsplit : completeLinesOf bytes = pre ++ bad :: suf)
    (hp : ("data: ".data).isPrefixOf (jsTrim bad) = true)
    (hparse : parseJson ((jsTrim bad).drop 6) = none) :
    streamLoop provider initDecState [ReadEvent.data bytes]
      = ((pre.filterMap (emitLine provider) ++ suf.filterMap (emitLine provider)).map
          CBCall.chunk) ++ [CBCall.done] := by
  have h1 : (feedChunk provider initDecState bytes).1
      = (pre ++ bad :: suf).filterMap (emitLine provider) := by
    simp only [feedChunk]
    rw [← hsplit]
    rfl
  have h2 : streamLoop provider initDecState [ReadEvent.data bytes]
      = (feedChunk provider initDecState bytes).1.map CBCall.chunk ++ [CBCall.done] := rfl
  rw [h2, h1, List.filterMap_append, List.filterMap_cons,
      emitLine_none_of_parse_fail provider bad hp hparse]

/-- Witness for C5: a stream whose first line is the malformed
`data: {oops` still delivers the following valid line's delta and the done
callback. -/
theorem malformed_line_skipped_witness :
    streamLoop openAIProvider initDecState [ReadEvent.data c5Bytes]
      = [CBCall.chunk { content := some (Json.str ("Y".data)), reasoning := none },
         CBCall.done] :=
  (malformed_line_skipped openAIProvider c5Bytes [] c5Bad [c5Good]
    (by rfl) (by rfl) (by rfl)).trans (by rfl)

/-- Claim C4: when the stored configuration is absent, or the API key for
the configured provider is absent, or the configured provider names no
registered adapter, `streamAI` produces exactly one callback invocation —
an error — which is delivered to the session as a single error event, and
`fetch` is never reached (second component `false`). -/
theorem misconfig_single_error_no_fetch (config : Option AIConfig)
    (fetch : APIRequestConfig → FetchOutcome) (sys user : List Char)
    (h : config = none
      ∨ (∃ cfg, config = some cfg ∧ strLookup cfg.provider cfg.apiKeys = none)
      ∨ (∃ cfg, config = some cfg ∧ providers cfg.provider = none)) :
    ∃ msg, streamAI config fetch sys user = ([CBCall.error msg], false)
      ∧ deliveredEvents false [CBCall.error msg] = [GatewayEvent.error msg] := by
  rcases h with h | ⟨cfg, rfl, hk⟩ | ⟨cfg, rfl, hpv⟩
  · subst h
    exact ⟨"AI功能未配置".data, rfl, rfl⟩
  · exact ⟨"AI功能未配置".data, by simp [streamAI, hk], rfl⟩
  · cases hk : strLookup cfg.provider cfg.apiKeys with
    | none => exact ⟨"AI功能未配置".data, by simp [streamAI, hk], rfl⟩
    | some key =>
      by_cases hkey : key = []
      · exact ⟨"AI功能未配置".data, by simp [streamAI, hk, hkey], rfl⟩
      · exact ⟨"不支持的AI服务商: ".data ++ cfg.provider,
          by simp [streamAI, hk, hkey, hpv], rfl⟩

/-- Witness for C4: absent configuration yields one delivered error event
and no fetch. -/
theorem misconfig_witness :
    ∃ msg, streamAI none (fun _ => FetchOutcome.ok []) ("S".data) ("U".data)
      = ([CBCall.error msg], false)
      ∧ deliveredEvents false [CBCall.error msg] = [GatewayEvent.error msg] :=
  misconfig_single_error_no_fetch none (fun _ => FetchOutcome.ok []) ("S".data) ("U".data)
    (Or.inl rfl)

/-- Claim C6: with configuration provider=openai, key "k", model "gpt-x",
prompts "S"/"U", and the upstream byte stream
`data: ...Hel...\n\ndata: ...lo...\n\ndata: [DONE]\n\n`, the session
observes exactly chunk "Hel", chunk "lo", done, in that order. -/
theorem end_to_end_openai_stream :
    deliveredEvents false
        (streamAI (some c6Config) (fun _ => FetchOutcome.ok [ReadEvent.data c6Stream])
          ("S".data) ("U".data)).1
      = [GatewayEvent.chunk (some (Json.str ("Hel".data))) none,
         GatewayEvent.chunk (some (Json.str ("lo".data))) none,
         GatewayEvent.done] := rfl

/-- Claim C7: for every pair of non-empty prompts, the Claude adapter puts
the system prompt in the dedicated `system` body field and its messages
list contains only the user message, while the Gemini adapter concatenates
system and user prompt into the single content part. -/
theorem system_prompt_placement (cfg : AIConfig) (model apiKey sys user : List Char)
    (hs : sys ≠ []) (hu : user ≠ []) :
    jsGetQ (some (claudeProvider.buildRequestConfig cfg sys user model apiKey true).body)
        ("system".data) = some (Json.str sys)
    ∧ jsGetQ (some (claudeProvider.buildRequestConfig cfg sys user model apiKey true).body)
        ("messages".data)
        = some (Json.arr [Json.obj [("role".data, Json.str ("user".data)),
                                    ("content".data, Json.str user)]])
    ∧ jsGetQ (some (geminiProvider.buildRequestConfig cfg sys user model apiKey true).body)
        ("contents".data)
        = some (Json.arr [Json.obj [("parts".data,
            Json.arr [Json.obj [("text".data,
              Json.str (sys ++ "\n\n".data ++ user))]])]]) := by
  refine ⟨rfl, rfl, ?_⟩
  simp [geminiProvider, geminiBuildRequestConfig, jsGetQ, jsLookup, hs]

/-- Witness for C7 at sys = "S", user = "U". -/
theorem system_prompt_placement_witness :
    jsGetQ (some (claudeProvider.buildRequestConfig c7Config ("S".data) ("U".data)
        ("m".data) ("k".data) true).body) ("system".data) = some (Json.str ("S".data)) :=
  (system_prompt_placement c7Config ("m".data) ("k".data) ("S".data) ("U".data)
    (by decide) (by decide)).1

/-- Claim C8: a decoded payload whose extracted content and reasoning deltas
are each absent or the empty string produces no chunk event: the adapter's
`|| null` normalises "" to absent and the emission guard then does not
fire. -/
theorem empty_delta_no_event (j : Json)
    (hc : openAIContentPath j = none ∨ openAIContentPath j = some (Json.str []))
    (hrc : openAIReasoningContentPath j = none
         ∨ openAIReasoningContentPath j = some (Json.str []))
    (hr : openAIReasoningPath j = none ∨ openAIReasoningPath j = some (Json.str [])) :
    openAIParseStreamChunk j = { content := none, reasoning := none }
    ∧ emitPayload openAIProvider (some j) = none := by
  have h1 : openAIParseStreamChunk j = { content := none, reasoning := none } := by
    simp only [openAIParseStreamChunk]
    rcases hc with hc | hc <;> rcases hrc with hrc | hrc <;> rcases hr with hr | hr <;>
      simp [hc, hrc, hr, jsOrNull, jsTruthy]
  refine ⟨h1, ?_⟩
  simp [emitPayload, openAIProvider, h1, jsTruthyOpt]

/-- Witness for C8: a payload whose content delta is the empty string emits
nothing. -/
theorem empty_delta_no_event_witness :
    emitPayload openAIProvider (some c8Payload) = none :=
  (empty_delta_no_event c8Payload (Or.inr rfl) (Or.inl rfl) (Or.inl rfl)).2

theorem isPrefixOf_append_self (a b : List Char) : a.isPrefixOf (a ++ b) = true := by
  induction a with
  | nil => cases b <;> rfl
  | cons c cs ih => simp [List.isPrefixOf, ih]

/-- Claim C9: the Gemini adapter's model-name prefixing is applied exactly
once: a model already starting with `models/` is used unchanged, any other
model gets the prefix added, the result always starts with `models/`, the
operation is idempotent, and the built URL embeds exactly this
once-prefixed name. -/
theorem gemini_model_prefixed_once (cfg : AIConfig) (m apiKey sys user : List Char) :
    geminiFullModelName (geminiFullModelName m) = geminiFullModelName m
    ∧ ("models/".data).isPrefixOf (geminiFullModelName m) = true
    ∧ (("models/".data).isPrefixOf m = true → geminiFullModelName m = m)
    ∧ (("models/".data).isPrefixOf m = false →
        geminiFullModelName m = "models/".data ++ m)
    ∧ (geminiProvider.buildRequestConfig cfg sys user m apiKey true).url
      = jsOrOptStr cfg.baseUrl ("https://generativelanguage.googleapis.com/v1beta".data)
        ++ "/".data ++ geminiFullModelName m ++ ":".data
        ++ "streamGenerateContent".data ++ "?".data
        ++ ("key=".data ++ apiKey ++ "&alt=sse".data) := by
  have hpfx : ∀ x : List Char, ("models/".data).isPrefixOf (geminiFullModelName x) = true := by
    intro x
    by_cases h : ("models/".data).isPrefixOf x = true
    · simp [geminiFullModelName, h]
    · simp only [geminiFullModelName, h, Bool.false_eq_true, if_false]
      exact isPrefixOf_append_self _ _
  refine ⟨?_, hpfx m, ?_, ?_, rfl⟩
  · by_cases h : ("models/".data).isPrefixOf m = true
    · have e1 : geminiFullModelName m = m := by simp [geminiFullModelName, h]
      rw [e1]
      exact e1
    · have e2 : geminiFullModelName m = "models/".data ++ m := by
        simp [geminiFullModelName, h]
      rw [e2]
      simp [geminiFullModelName, isPrefixOf_append_self]
  · intro h; simp [geminiFullModelName, h]
  · intro h; simp [geminiFullModelName, h]

/-- Witness for C9: an unprefixed model gets the prefix added (and the
already-prefixed result is then left unchanged). -/
theorem gemini_model_prefixed_once_witness :
    geminiFullModelName ("gemini-pro".data) = "models/gemini-pro".data :=
  (gemini_model_prefixed_once c7Config ("gemini-pro".data) ("k".data) ("S".data)
    ("U".data)).2.2.2.1 (by decide)

theorem dropWhile_head_not {p : Char → Bool} :
    ∀ (l : List Char) (c : Char) (cs : List Char), l.dropWhile p = c :: cs → p c = false := by
  intro l
  induction l with
  | nil => intro c cs h; cases h
  | cons a as ih =>
    intro c cs h
    by_cases hp : p a = true
    · rw [List.dropWhile_cons, if_pos hp] at h
      exact ih c cs h
    · rw [List.dropWhile_cons, if_neg hp] at h
      cases h
      simpa using hp

theorem dropWhile_append_singleton {p : Char → Bool} (a : Char) (ha : p a = false) :
    ∀ (xs : List Char), (xs ++ [a]).dropWhile p = xs.dropWhile p ++ [a] := by
  intro xs
  induction xs with
  | nil => simp [List.dropWhile_cons, ha]
  | cons x xs ih =>
    by_cases hp : p x = true <;>
      simp [List.dropWhile_cons, hp, ih]

theorem length_dropWhile_le' {p : Char → Bool} (l : List Char) :
    (l.dropWhile p).length ≤ l.length := by
  induction l with
  | nil => simp
  | cons a as ih =>
    by_cases hp : p a = true
    · rw [List.dropWhile_cons, if_pos hp]
      exact Nat.le_trans ih (Nat.le_succ _)
    · rw [List.dropWhile_cons, if_neg hp]

theorem length_jsTrim_le (s : List Char) : (jsTrim s).length ≤ s.length := by
  simp only [jsTrim, List.length_reverse]
  exact Nat.le_trans (Nat.le_trans (length_dropWhile_le' _)
    (by rw [List.length_reverse])) (length_dropWhile_le' s)

theorem jsTrim_idem (s : List Char) : jsTrim (jsTrim s) = jsTrim s := by
  cases hA : s.dropWhile isJsWs with
  | nil =>
    have h0 : jsTrim s = [] := by simp [jsTrim, hA]
    rw [h0]
    rfl
  | cons a as =>
    have ha : isJsWs a = false := dropWhile_head_not _ _ _ hA
    have hB : jsTrim s = a :: (as.reverse.dropWhile isJsWs).reverse := by
      simp only [jsTrim, hA, List.reverse_cons]
      rw [dropWhile_append_singleton a ha as.reverse]
      simp
    have hdB : (jsTrim s).dropWhile isJsWs = jsTrim s := by
      rw [hB, List.dropWhile_cons, if_neg (by simp [ha])]
    have hrB : (jsTrim s).reverse.dropWhile isJsWs = (jsTrim s).reverse := by
      rw [hB]
      simp only [List.reverse_cons, List.reverse_reverse]
      rw [dropWhile_append_singleton a ha]
      cases hD : as.reverse.dropWhile isJsWs with
      | nil => rfl
      | cons d ds =>
        have hd : isJsWs d = false := dropWhile_head_not _ _ _ hD
        simp [List.dropWhile_cons, hd]
    show (((jsTrim s).dropWhile isJsWs).reverse.dropWhile isJsWs).reverse = jsTrim s
    rw [hdB, hrB, List.reverse_reverse]

theorem lastIdxOf_lt_length (ch : Char) :
    ∀ (l : List Char) (i : Nat), lastIdxOf ch l = some i → i < l.length := by
  intro l
  induction l with
  | nil => intro i h; cases h
  | cons c cs ih =>
    intro i h
    simp only [lastIdxOf] at h
    cases hh : lastIdxOf ch cs with
    | some j =>
      rw [hh] at h
      cases h
      have := ih j hh
      simp only [List.length_cons]
      omega
    | none =>
      rw [hh] at h
      by_cases hc : c = ch
      · rw [if_pos hc] at h
        cases h
        simp
      · rw [if_neg hc] at h
        cases h

theorem truncateFormatted_ok (F : List Char) (h : jsTrim F = F) :
    (truncateFormatted F).length ≤ 8000
    ∧ jsTrim (truncateFormatted F) = truncateFormatted F := by
  by_cases hlen : F.length ≤ 8000
  · simp only [truncateFormatted, if_pos hlen]
    exact ⟨hlen, h⟩
  · simp only [truncateFormatted, if_neg hlen]
    have hcut : ∀ cp : Int, cp ≤ 8000 →
        (jsTrim (F.take cp.toNat)).length ≤ 8000
          ∧ jsTrim (jsTrim (F.take cp.toNat)) = jsTrim (F.take cp.toNat) := by
      intro cp hcp
      refine ⟨?_, jsTrim_idem _⟩
      have h1 := length_jsTrim_le (F.take cp.toNat)
      have h2 := List.length_take_le cp.toNat F
      omega
    apply hcut
    have hP : jsIdx (lastIdxOf '。' (F.take 8000)) < 8000 := by
      cases o1 : lastIdxOf '。' (F.take 8000) with
      | none => decide
      | some i =>
        have hb := lastIdxOf_lt_length '。' (F.take 8000) i o1
        have h2 := List.length_take_le 8000 F
        simp only [jsIdx]
        omega
    have hS : jsIdx (lastIdxOf ' ' (F.take 8000)) < 8000 := by
      cases o2 : lastIdxOf ' ' (F.take 8000) with
      | none => decide
      | some i =>
        have hb := lastIdxOf_lt_length ' ' (F.take 8000) i o2
        have h2 := List.length_take_le 8000 F
        simp only [jsIdx]
        omega
    split_ifs <;> omega

theorem formatCore_ok (texts : List (List Char)) :
    (formatCore texts).length ≤ 8000 ∧ jsTrim (formatCore texts) = formatCore texts :=
  truncateFormatted_ok _ (jsTrim_idem _)

/-- Claim C10 counterexample: `[null]` is a non-empty array, yet
`formatSubtitlesForAI` throws (reading `subtitle.text` of a `null` element
raises a TypeError), refuting "throws exactly when the input is not an
array or is an empty array". -/
theorem format_throws_on_null_element :
    formatSubtitlesForAI (Json.arr [Json.null]) = Except.error ("TypeError".data)
    ∧ [Json.null] ≠ ([] : List Json) :=
  ⟨rfl, by simp⟩

/-- Claim C10 (amended): `formatSubtitlesForAI` throws whenever the input is
not an array or is an empty array (it may also throw for a non-empty array
whose elements make the per-subtitle text extraction raise a TypeError,
such as a null element); whenever it returns normally, the result is a
string of length at most 8000 with no leading or trailing whitespace. -/
theorem format_result_bounded (j : Json) :
    ((∀ l, j ≠ Json.arr l) → ∃ msg, formatSubtitlesForAI j = Except.error msg)
    ∧ (j = Json.arr [] → ∃ msg, formatSubtitlesForAI j = Except.error msg)
    ∧ (∀ s, formatSubtitlesForAI j = Except.ok s →
        s.length ≤ 8000 ∧ jsTrim s = s) := by
  refine ⟨?_, ?_, ?_⟩
  · intro hne
    cases j with
    | arr l => exact absurd rfl (hne l)
    | null => exact ⟨_, rfl⟩
    | bool b => exact ⟨_, rfl⟩
    | num m e => exact ⟨_, rfl⟩
    | str s => exact ⟨_, rfl⟩
    | obj f => exact ⟨_, rfl⟩
  · rintro rfl
    exact ⟨_, rfl⟩
  · intro s hs
    cases j with
    | arr l =>
      cases l with
      | nil => simp [formatSubtitlesForAI] at hs
      | cons x xs =>
        simp only [formatSubtitlesForAI, List.isEmpty_cons, Bool.false_eq_true,
          if_false] at hs
        cases hm : (x :: xs).mapM subtitleText with
        | error e => rw [hm] at hs; cases hs
        | ok texts =>
          rw [hm] at hs
          injection hs with hs2
          subst hs2
          exact formatCore_ok texts
    | null => cases hs
    | bool b => cases hs
    | num m e => cases hs
    | str s2 => cases hs
    | obj f => cases hs

/-- Witness for the amended C10: a one-element subtitle array formats to
"hi", which is within the bound and trimmed. -/
theorem format_result_bounded_witness :
    ("hi".data).length ≤ 8000 ∧ jsTrim ("hi".data) = "hi".data :=
  (format_result_bounded c10Good).2.2 ("hi".data) rfl
